import Mathlib

/-!
Verification development for the NAS_CEPTION repository
(src/modifiedLSTM.py): a shallow embedding of the two recurrent
cell variants BasicNeatCell and AdvancedNeatCell, together with
theorems settling the frozen claims about the specification.

Modelling conventions:
* A 2-D tensor of real scalars is embedded as a total function
  Mat alpha = Nat -> Nat -> alpha; the logical shape (rows, cols) is
  extrinsic, exactly as TensorFlow shapes are metadata on top of the
  stored buffer.  Splitting a tensor becomes an index offset.
* The scalar type is any linearly ordered field; the elementwise
  nonlinearities sigmoid and tanh (math_ops.sigmoid, math_ops.tanh)
  are abstract parameters bundled in an Activations record, since the
  transition formula treats them as black boxes; nn_ops.relu is
  max x 0 and gen_math_ops.maximum is the binary max, both definable
  from the order.  For claims about real-valued bounds the record is
  instantiated with the genuine real sigmoid and tanh.
* The constructor arguments stored by __init__ (num_units,
  forget_bias, state_is_tuple, activation) are bundled in a
  NeatConfig record playing the role of self.
* build either raises ValueError (when the last input dimension is
  unknown, i.e. none) or records the kernel and bias shapes; it is
  embedded as an Except value returning those shapes.
* call receives the previous state either as an LSTMStateTuple or as
  a column-wise concatenation, modelled by the CellState sum type;
  when the state arity does not match state_is_tuple the Python
  unpacking could not proceed (a framework-level type error), which
  the embedding models as the Option none case.
-/

/-- A 2-D tensor: row index, column index to scalar. Shape is extrinsic. -/
abbrev Mat (α : Type) := ℕ → ℕ → α

/-- A 1-D tensor (bias vector). -/
abbrev Vec (α : Type) := ℕ → α

/-- math_ops.matmul with inner dimension k: (A B) i j = sum over t < k of
A i t * B t j. -/
def matmul {α : Type} [LinearOrderedField α] (k : ℕ) (A B : Mat α) : Mat α :=
  fun i j => ∑ t ∈ Finset.range k, A i t * B t j

/-- Apply a scalar function elementwise (the nonlinearities act this way). -/
def emap {α : Type} (f : α → α) (A : Mat α) : Mat α :=
  fun i j => f (A i j)

/-- math_ops.add, elementwise. -/
def eadd {α : Type} [LinearOrderedField α] (A B : Mat α) : Mat α :=
  fun i j => A i j + B i j

/-- math_ops.multiply, elementwise. -/
def emul {α : Type} [LinearOrderedField α] (A B : Mat α) : Mat α :=
  fun i j => A i j * B i j

/-- gen_math_ops.maximum, elementwise. -/
def emax {α : Type} [LinearOrderedField α] (A B : Mat α) : Mat α :=
  fun i j => max (A i j) (B i j)

/-- array_ops.identity. -/
def eid {α : Type} (A : Mat α) : Mat α := A

/-- nn_ops.relu as a scalar function. -/
def relu {α : Type} [LinearOrderedField α] (x : α) : α := max x 0

/-- nn_ops.bias_add: add a bias vector to every row. -/
def biasAdd {α : Type} [LinearOrderedField α] (A : Mat α) (b : Vec α) : Mat α :=
  fun i j => A i j + b j

/-- A block of columns starting at column offset off (one piece of an
array_ops.split along axis 1). -/
def colSlice {α : Type} (off : ℕ) (A : Mat α) : Mat α :=
  fun i j => A i (off + j)

/-- A block of rows starting at row offset off (one piece of an
array_ops.split along axis 0). -/
def rowSlice {α : Type} (off : ℕ) (A : Mat α) : Mat α :=
  fun i j => A (off + i) j

/-- A slice of a bias vector starting at offset off. -/
def vecSlice {α : Type} (off : ℕ) (b : Vec α) : Vec α :=
  fun j => b (off + j)

/-- array_ops.concat along axis 1: A fills the first k columns, B follows. -/
def concatCols {α : Type} (k : ℕ) (A B : Mat α) : Mat α :=
  fun i j => if j < k then A i j else B i (j - k)

/-- The elementwise nonlinearities supplied by the framework:
math_ops.sigmoid and math_ops.tanh. -/
structure Activations (α : Type) where
  sigmoid : α → α
  tanh : α → α

/-- The fields stored on self by BasicNeatCell.__init__ and
AdvancedNeatCell.__init__ (reuse, name and dtype are framework
bookkeeping and carry no arithmetic content). -/
structure NeatConfig (α : Type) where
  num_units : ℕ
  forget_bias : α
  state_is_tuple : Bool
  activation : α → α

/-- The previous recurrent state accepted by call: an LSTMStateTuple
(c_state, m_state) or a single column-wise concatenated tensor. -/
inductive CellState (α : Type) where
  | tuple (c h : Mat α)
  | single (s : Mat α)

/-- Whether the arity of a state value matches state_is_tuple. -/
def arityOk {α : Type} (isTuple : Bool) : CellState α → Bool
  | .tuple _ _ => isTuple
  | .single _ => !isTuple

/-- The cell-state component c extracted from a state (the split of a
concatenated state takes the first num_units columns). -/
def stateC {α : Type} (n : ℕ) : CellState α → Mat α
  | .tuple c _ => c
  | .single s => colSlice 0 s

/-- The hidden-state component h extracted from a state (the split of a
concatenated state takes the columns from num_units on). -/
def stateH {α : Type} (n : ℕ) : CellState α → Mat α
  | .tuple _ h => h
  | .single s => colSlice n s

/-- The value of the state_size property: an LSTMStateTuple of sizes or a
single flat size. -/
inductive StateSizeSpec where
  | pair (c h : ℕ)
  | flat (k : ℕ)
deriving DecidableEq

namespace BasicNeatCell

/-- BasicNeatCell.__init__: stores num_units, forget_bias, state_is_tuple
and activation (defaulting to math_ops.tanh) on self. -/
def init {α : Type} (acts : Activations α) (num_units : ℕ) (forget_bias : α)
    (state_is_tuple : Bool) (activation : Option (α → α)) : NeatConfig α :=
  { num_units := num_units
    forget_bias := forget_bias
    state_is_tuple := state_is_tuple
    activation := activation.getD acts.tanh }

/-- BasicNeatCell.state_size. -/
def state_size {α : Type} (cfg : NeatConfig α) : StateSizeSpec :=
  if cfg.state_is_tuple then .pair cfg.num_units cfg.num_units
  else .flat (2 * cfg.num_units)

/-- BasicNeatCell.output_size. -/
def output_size {α : Type} (cfg : NeatConfig α) : ℕ := cfg.num_units

/-- BasicNeatCell.build: raises ValueError when the last input dimension
is unknown; otherwise allocates the kernel of shape
[input_depth + num_units, 8 * num_units] and the bias of shape
[8 * num_units], returned here as ((kernel rows, kernel cols), bias len). -/
def build {α : Type} (cfg : NeatConfig α) (inputsShape1 : Option ℕ) :
    Except String ((ℕ × ℕ) × ℕ) :=
  match inputsShape1 with
  | none => .error "Expected inputs.shape[-1] to be known, saw shape with unknown last dimension"
  | some input_depth =>
      .ok ((input_depth + cfg.num_units, 8 * cfg.num_units), 8 * cfg.num_units)

/-- W_f: the first num_units columns of the kernel
(split with sizes [num_units * 1, num_units * 7] along axis 1). -/
def wF {α : Type} (n : ℕ) (K : Mat α) : Mat α := colSlice 0 K

/-- W_r: the remaining 7 * num_units columns of the kernel. -/
def wR {α : Type} (n : ℕ) (K : Mat α) : Mat α := colSlice n K

/-- W_fi: the first input_depth rows of W_f. -/
def wFi {α : Type} (n d : ℕ) (K : Mat α) : Mat α := rowSlice 0 (wF n K)

/-- W_fh: the num_units rows of W_f below the first input_depth rows. -/
def wFh {α : Type} (n d : ℕ) (K : Mat α) : Mat α := rowSlice d (wF n K)

/-- W_ri: the first input_depth rows of W_r. -/
def wRi {α : Type} (n d : ℕ) (K : Mat α) : Mat α := rowSlice 0 (wR n K)

/-- W_rh: the num_units rows of W_r below the first input_depth rows. -/
def wRh {α : Type} (n d : ℕ) (K : Mat α) : Mat α := rowSlice d (wR n K)

/-- b_f: the first num_units entries of the bias. -/
def bF {α : Type} (n : ℕ) (b : Vec α) : Vec α := vecSlice 0 b

/-- b_r: the remaining 7 * num_units entries of the bias. -/
def bR {α : Type} (n : ℕ) (b : Vec α) : Vec α := vecSlice n b

/-- The tensor a of the source: elementwise product of matmul(h, W_fh)
and matmul(inputs, W_fi), then bias_add with b_f. -/
def gateA {α : Type} [LinearOrderedField α] (n d : ℕ) (K : Mat α) (b : Vec α)
    (inputs h : Mat α) : Mat α :=
  biasAdd (emul (matmul n h (wFh n d K)) (matmul d inputs (wFi n d K))) (bF n b)

/-- The tensor bh of the source: sum of matmul(h, W_rh) and
matmul(inputs, W_ri), then bias_add with b_r. -/
def bh {α : Type} [LinearOrderedField α] (n d : ℕ) (K : Mat α) (b : Vec α)
    (inputs h : Mat α) : Mat α :=
  biasAdd (eadd (matmul n h (wRh n d K)) (matmul d inputs (wRi n d K))) (bR n b)

/-- The eight gate tensors of BasicNeatCell.call, indexed
0 = a, 1 = b, 2 = c2, 3 = d, 4 = e, 5 = f, 6 = g, 7 = h (the source
splits bh into seven equal column blocks named b, c2, d, e, f, g, h;
the last rebinds the Python name h). -/
def gatesOf {α : Type} [LinearOrderedField α] (n d : ℕ) (K : Mat α) (b : Vec α)
    (inputs h : Mat α) : ℕ → Mat α :=
  fun k => if k = 0 then gateA n d K b inputs h
           else colSlice ((k - 1) * n) (bh n d K b inputs h)

/-- Nas cell 1, the new_c line of the source:
new_c = multiply(tanh(add(c, tanh(multiply(relu(h), sigmoid(g))))),
tanh(add(sigmoid(d), relu(a)))), with gates passed as g 0 = a, g 3 = d,
g 6 = g, g 7 = h. -/
def combineC {α : Type} [LinearOrderedField α] (acts : Activations α)
    (c : Mat α) (g : ℕ → Mat α) : Mat α :=
  emul (emap acts.tanh (eadd c (emap acts.tanh
          (emul (emap relu (g 7)) (emap acts.sigmoid (g 6))))))
       (emap acts.tanh (eadd (emap acts.sigmoid (g 3)) (emap relu (g 0))))

/-- Nas cell 1, the new_h line of the source:
new_h = tanh(multiply(identity(new_c),
tanh(add(tanh(multiply(sigmoid(e), tanh(f))),
sigmoid(add(sigmoid(b), tanh(c2))))))), with g 1 = b, g 2 = c2,
g 4 = e, g 5 = f. -/
def combineH {α : Type} [LinearOrderedField α] (acts : Activations α)
    (nc : Mat α) (g : ℕ → Mat α) : Mat α :=
  emap acts.tanh (emul (eid nc)
    (emap acts.tanh (eadd
      (emap acts.tanh (emul (emap acts.sigmoid (g 4)) (emap acts.tanh (g 5))))
      (emap acts.sigmoid (eadd (emap acts.sigmoid (g 1)) (emap acts.tanh (g 2)))))))

/-- The new cell state computed by BasicNeatCell.call. -/
def newC {α : Type} [LinearOrderedField α] (acts : Activations α) (n d : ℕ)
    (K : Mat α) (b : Vec α) (inputs c h : Mat α) : Mat α :=
  combineC acts c (gatesOf n d K b inputs h)

/-- The new hidden state computed by BasicNeatCell.call. -/
def newH {α : Type} [LinearOrderedField α] (acts : Activations α) (n d : ℕ)
    (K : Mat α) (b : Vec α) (inputs c h : Mat α) : Mat α :=
  combineH acts (newC acts n d K b inputs c h) (gatesOf n d K b inputs h)

/-- BasicNeatCell.call: unpack the previous state according to
state_is_tuple, compute new_c and new_h, and return
(new_h, new state), the new state being an LSTMStateTuple or the
column-wise concatenation of new_c and new_h.  The none case is a
state of the wrong arity, which the Python unpacking could not accept. -/
def call {α : Type} [LinearOrderedField α] (acts : Activations α)
    (cfg : NeatConfig α) (d : ℕ) (K : Mat α) (b : Vec α)
    (inputs : Mat α) (state : CellState α) : Option (Mat α × CellState α) :=
  match cfg.state_is_tuple, state with
  | true, .tuple c h =>
      some (newH acts cfg.num_units d K b inputs c h,
            .tuple (newC acts cfg.num_units d K b inputs c h)
                   (newH acts cfg.num_units d K b inputs c h))
  | false, .single s =>
      let c := colSlice 0 s
      let h := colSlice cfg.num_units s
      some (newH acts cfg.num_units d K b inputs c h,
            .single (concatCols cfg.num_units
                      (newC acts cfg.num_units d K b inputs c h)
                      (newH acts cfg.num_units d K b inputs c h)))
  | _, _ => none

end BasicNeatCell

namespace AdvancedNeatCell

/-- AdvancedNeatCell.__init__: identical to BasicNeatCell.__init__. -/
def init {α : Type} (acts : Activations α) (num_units : ℕ) (forget_bias : α)
    (state_is_tuple : Bool) (activation : Option (α → α)) : NeatConfig α :=
  { num_units := num_units
    forget_bias := forget_bias
    state_is_tuple := state_is_tuple
    activation := activation.getD acts.tanh }

/-- AdvancedNeatCell.state_size. -/
def state_size {α : Type} (cfg : NeatConfig α) : StateSizeSpec :=
  if cfg.state_is_tuple then .pair cfg.num_units cfg.num_units
  else .flat (2 * cfg.num_units)

/-- AdvancedNeatCell.output_size. -/
def output_size {α : Type} (cfg : NeatConfig α) : ℕ := cfg.num_units

/-- AdvancedNeatCell.build: textually identical to BasicNeatCell.build. -/
def build {α : Type} (cfg : NeatConfig α) (inputsShape1 : Option ℕ) :
    Except String ((ℕ × ℕ) × ℕ) :=
  match inputsShape1 with
  | none => .error "Expected inputs.shape[-1] to be known, saw shape with unknown last dimension"
  | some input_depth =>
      .ok ((input_depth + cfg.num_units, 8 * cfg.num_units), 8 * cfg.num_units)

/-- W_f: the first 5 * num_units columns of the kernel
(split with sizes [num_units * 5, num_units * 3] along axis 1). -/
def wF {α : Type} (n : ℕ) (K : Mat α) : Mat α := colSlice 0 K

/-- W_r: the remaining 3 * num_units columns of the kernel. -/
def wR {α : Type} (n : ℕ) (K : Mat α) : Mat α := colSlice (5 * n) K

/-- W_fi: the first input_depth rows of W_f. -/
def wFi {α : Type} (n d : ℕ) (K : Mat α) : Mat α := rowSlice 0 (wF n K)

/-- W_fh: the num_units rows of W_f below the first input_depth rows. -/
def wFh {α : Type} (n d : ℕ) (K : Mat α) : Mat α := rowSlice d (wF n K)

/-- W_ri: the first input_depth rows of W_r. -/
def wRi {α : Type} (n d : ℕ) (K : Mat α) : Mat α := rowSlice 0 (wR n K)

/-- W_rh: the num_units rows of W_r below the first input_depth rows. -/
def wRh {α : Type} (n d : ℕ) (K : Mat α) : Mat α := rowSlice d (wR n K)

/-- b_f: the first 5 * num_units entries of the bias. -/
def bF {α : Type} (n : ℕ) (b : Vec α) : Vec α := vecSlice 0 b

/-- b_r: the remaining 3 * num_units entries of the bias. -/
def bR {α : Type} (n : ℕ) (b : Vec α) : Vec α := vecSlice (5 * n) b

/-- The tensor sw of the source: sum of matmul(h, W_fh) and
matmul(inputs, W_fi), then bias_add with b_f. -/
def sw {α : Type} [LinearOrderedField α] (n d : ℕ) (K : Mat α) (b : Vec α)
    (inputs h : Mat α) : Mat α :=
  biasAdd (eadd (matmul n h (wFh n d K)) (matmul d inputs (wFi n d K))) (bF n b)

/-- The tensor xz of the source: elementwise maximum of matmul(h, W_rh)
and matmul(inputs, W_ri), then bias_add with b_r. -/
def xz {α : Type} [LinearOrderedField α] (n d : ℕ) (K : Mat α) (b : Vec α)
    (inputs h : Mat α) : Mat α :=
  biasAdd (emax (matmul n h (wRh n d K)) (matmul d inputs (wRi n d K))) (bR n b)

/-- The eight gate tensors of AdvancedNeatCell.call, indexed
0 = s, 1 = t, 2 = u, 3 = v, 4 = w (the five equal column blocks of sw)
and 5 = x, 6 = y, 7 = z (the three equal column blocks of xz). -/
def gatesOf {α : Type} [LinearOrderedField α] (n d : ℕ) (K : Mat α) (b : Vec α)
    (inputs h : Mat α) : ℕ → Mat α :=
  fun k => if k < 5 then colSlice (k * n) (sw n d K b inputs h)
           else colSlice ((k - 5) * n) (xz n d K b inputs h)

/-- Nas cell 2, the new_c line of the source:
new_c = multiply(identity(add(identity(add(c, tanh(z))), identity(y))),
sigmoid(add(relu(v), tanh(s)))), with g 0 = s, g 3 = v, g 6 = y, g 7 = z. -/
def combineC {α : Type} [LinearOrderedField α] (acts : Activations α)
    (c : Mat α) (g : ℕ → Mat α) : Mat α :=
  emul (eid (eadd (eid (eadd c (emap acts.tanh (g 7)))) (eid (g 6))))
       (emap acts.sigmoid (eadd (emap relu (g 3)) (emap acts.tanh (g 0))))

/-- Nas cell 2, the new_h line of the source:
new_h = tanh(multiply(identity(new_c),
sigmoid(multiply(sigmoid(add(tanh(x), tanh(w))),
sigmoid(add(identity(u), tanh(t))))))), with g 1 = t, g 2 = u, g 4 = w,
g 5 = x. -/
def combineH {α : Type} [LinearOrderedField α] (acts : Activations α)
    (nc : Mat α) (g : ℕ → Mat α) : Mat α :=
  emap acts.tanh (emul (eid nc)
    (emap acts.sigmoid (emul
      (emap acts.sigmoid (eadd (emap acts.tanh (g 5)) (emap acts.tanh (g 4))))
      (emap acts.sigmoid (eadd (eid (g 2)) (emap acts.tanh (g 1)))))))

/-- The new cell state computed by AdvancedNeatCell.call. -/
def newC {α : Type} [LinearOrderedField α] (acts : Activations α) (n d : ℕ)
    (K : Mat α) (b : Vec α) (inputs c h : Mat α) : Mat α :=
  combineC acts c (gatesOf n d K b inputs h)

/-- The new hidden state computed by AdvancedNeatCell.call. -/
def newH {α : Type} [LinearOrderedField α] (acts : Activations α) (n d : ℕ)
    (K : Mat α) (b : Vec α) (inputs c h : Mat α) : Mat α :=
  combineH acts (newC acts n d K b inputs c h) (gatesOf n d K b inputs h)

/-- AdvancedNeatCell.call, packaged exactly like BasicNeatCell.call. -/
def call {α : Type} [LinearOrderedField α] (acts : Activations α)
    (cfg : NeatConfig α) (d : ℕ) (K : Mat α) (b : Vec α)
    (inputs : Mat α) (state : CellState α) : Option (Mat α × CellState α) :=
  match cfg.state_is_tuple, state with
  | true, .tuple c h =>
      some (newH acts cfg.num_units d K b inputs c h,
            .tuple (newC acts cfg.num_units d K b inputs c h)
                   (newH acts cfg.num_units d K b inputs c h))
  | false, .single s =>
      let c := colSlice 0 s
      let h := colSlice cfg.num_units s
      some (newH acts cfg.num_units d K b inputs c h,
            .single (concatCols cfg.num_units
                      (newC acts cfg.num_units d K b inputs c h)
                      (newH acts cfg.num_units d K b inputs c h)))
  | _, _ => none

end AdvancedNeatCell

/-- Written to the words of the spec, for comparison with the source:
"Fused weight matrix: a single matrix concatenating the weights for all
gates, split apart after one matrix multiply for efficiency."  The
concatenated data [inputs, h] (input_depth columns of inputs, then
num_units columns of h) is multiplied once against the whole kernel and
the bias added; the gate sub-vectors would then be column slices of
this result. -/
def specFusedLinear {α : Type} [LinearOrderedField α] (n d : ℕ) (K : Mat α)
    (b : Vec α) (inputs h : Mat α) : Mat α :=
  biasAdd (matmul (d + n) (concatCols d inputs h) K) b

/-- The syntax of the arithmetic dataflow graph inside call, used to state
which operations the transition formula is built from.  gateE k is a leaf
standing for the k-th gate sub-vector; ksliceE r c is the kernel block at
row offset r and column offset c; baddE adds the bias slice at the given
offset; mmulE carries its inner dimension. -/
inductive TExpr : Type where
  | inpE : TExpr
  | hE : TExpr
  | cE : TExpr
  | gateE : ℕ → TExpr
  | ksliceE : ℕ → ℕ → TExpr
  | mmulE : ℕ → TExpr → TExpr → TExpr
  | baddE : TExpr → ℕ → TExpr
  | csliceE : ℕ → TExpr → TExpr
  | addE : TExpr → TExpr → TExpr
  | mulE : TExpr → TExpr → TExpr
  | maxE : TExpr → TExpr → TExpr
  | sigE : TExpr → TExpr
  | tanhE : TExpr → TExpr
  | reluE : TExpr → TExpr
  | idE : TExpr → TExpr

/-- The tensors a graph refers to: kernel, bias, inputs, previous c and h,
and the gate environment. -/
structure TEnv (α : Type) where
  K : Mat α
  b : Vec α
  inputs : Mat α
  c : Mat α
  h : Mat α
  gates : ℕ → Mat α

/-- Evaluation of a dataflow graph over an environment, each node by the
tensor operation it stands for. -/
def teval {α : Type} [LinearOrderedField α] (acts : Activations α)
    (e : TEnv α) : TExpr → Mat α
  | .inpE => e.inputs
  | .hE => e.h
  | .cE => e.c
  | .gateE k => e.gates k
  | .ksliceE r c => rowSlice r (colSlice c e.K)
  | .mmulE k A B => matmul k (teval acts e A) (teval acts e B)
  | .baddE A off => biasAdd (teval acts e A) (vecSlice off e.b)
  | .csliceE off A => colSlice off (teval acts e A)
  | .addE A B => eadd (teval acts e A) (teval acts e B)
  | .mulE A B => emul (teval acts e A) (teval acts e B)
  | .maxE A B => emax (teval acts e A) (teval acts e B)
  | .sigE A => emap acts.sigmoid (teval acts e A)
  | .tanhE A => emap acts.tanh (teval acts e A)
  | .reluE A => emap relu (teval acts e A)
  | .idE A => eid (teval acts e A)

/-- Replace every gate leaf by the graph that produces that gate. -/
def substGates (g : ℕ → TExpr) : TExpr → TExpr
  | .inpE => .inpE
  | .hE => .hE
  | .cE => .cE
  | .gateE k => g k
  | .ksliceE r c => .ksliceE r c
  | .mmulE k A B => .mmulE k (substGates g A) (substGates g B)
  | .baddE A off => .baddE (substGates g A) off
  | .csliceE off A => .csliceE off (substGates g A)
  | .addE A B => .addE (substGates g A) (substGates g B)
  | .mulE A B => .mulE (substGates g A) (substGates g B)
  | .maxE A B => .maxE (substGates g A) (substGates g B)
  | .sigE A => .sigE (substGates g A)
  | .tanhE A => .tanhE (substGates g A)
  | .reluE A => .reluE (substGates g A)
  | .idE A => .idE (substGates g A)

/-- Whether a graph is built only from the operations the spec lists for
the transition formula: the elementwise nonlinearities sigmoid, tanh,
relu and identity, matrix multiplication, elementwise addition and
multiplication (with tensor slicing and bias addition, which the fused
layout requires).  The elementwise maximum is not among them. -/
def opsAllowed : TExpr → Bool
  | .inpE => true
  | .hE => true
  | .cE => true
  | .gateE _ => true
  | .ksliceE _ _ => true
  | .mmulE _ A B => opsAllowed A && opsAllowed B
  | .baddE A _ => opsAllowed A
  | .csliceE _ A => opsAllowed A
  | .addE A B => opsAllowed A && opsAllowed B
  | .mulE A B => opsAllowed A && opsAllowed B
  | .maxE _ _ => false
  | .sigE A => opsAllowed A
  | .tanhE A => opsAllowed A
  | .reluE A => opsAllowed A
  | .idE A => opsAllowed A

namespace BasicNeatCell

/-- The graph of the new_c combination formula (Nas cell 1), gates as
leaves. -/
def combCE : TExpr :=
  .mulE (.tanhE (.addE .cE (.tanhE (.mulE (.reluE (.gateE 7)) (.sigE (.gateE 6))))))
        (.tanhE (.addE (.sigE (.gateE 3)) (.reluE (.gateE 0))))

/-- The graph of the new_h combination formula (Nas cell 1), gates as
leaves, with the new_c graph inlined where the source reads new_c. -/
def combHE : TExpr :=
  .tanhE (.mulE (.idE combCE)
    (.tanhE (.addE
      (.tanhE (.mulE (.sigE (.gateE 4)) (.tanhE (.gateE 5))))
      (.sigE (.addE (.sigE (.gateE 1)) (.tanhE (.gateE 2)))))))

/-- The graph producing the tensor a. -/
def gateAE (n d : ℕ) : TExpr :=
  .baddE (.mulE (.mmulE n .hE (.ksliceE d 0)) (.mmulE d .inpE (.ksliceE 0 0))) 0

/-- The graph producing the tensor bh. -/
def bhE (n d : ℕ) : TExpr :=
  .baddE (.addE (.mmulE n .hE (.ksliceE d n)) (.mmulE d .inpE (.ksliceE 0 n))) n

/-- The graph producing each gate, in the indexing of gatesOf. -/
def gateTreeE (n d : ℕ) : ℕ → TExpr :=
  fun k => if k = 0 then gateAE n d else .csliceE ((k - 1) * n) (bhE n d)

/-- The complete dataflow graph of new_c, from kernel, bias, inputs and
previous state to the new cell state. -/
def newCFullE (n d : ℕ) : TExpr := substGates (gateTreeE n d) combCE

/-- The complete dataflow graph of new_h. -/
def newHFullE (n d : ℕ) : TExpr := substGates (gateTreeE n d) combHE

end BasicNeatCell

namespace AdvancedNeatCell

/-- The graph of the new_c combination formula (Nas cell 2), gates as
leaves. -/
def combCE : TExpr :=
  .mulE (.idE (.addE (.idE (.addE .cE (.tanhE (.gateE 7)))) (.idE (.gateE 6))))
        (.sigE (.addE (.reluE (.gateE 3)) (.tanhE (.gateE 0))))

/-- The graph of the new_h combination formula (Nas cell 2), gates as
leaves, with the new_c graph inlined where the source reads new_c. -/
def combHE : TExpr :=
  .tanhE (.mulE (.idE combCE)
    (.sigE (.mulE
      (.sigE (.addE (.tanhE (.gateE 5)) (.tanhE (.gateE 4))))
      (.sigE (.addE (.idE (.gateE 2)) (.tanhE (.gateE 1)))))))

/-- The graph producing the tensor sw. -/
def swE (n d : ℕ) : TExpr :=
  .baddE (.addE (.mmulE n .hE (.ksliceE d 0)) (.mmulE d .inpE (.ksliceE 0 0))) 0

/-- The graph producing the tensor xz, whose combining node is the
elementwise maximum of the source line
xz = gen_math_ops.maximum(math_ops.matmul(h, W_rh), math_ops.matmul(inputs, W_ri)). -/
def xzE (n d : ℕ) : TExpr :=
  .baddE (.maxE (.mmulE n .hE (.ksliceE d (5 * n))) (.mmulE d .inpE (.ksliceE 0 (5 * n)))) (5 * n)

/-- The graph producing each gate, in the indexing of gatesOf. -/
def gateTreeE (n d : ℕ) : ℕ → TExpr :=
  fun k => if k < 5 then .csliceE (k * n) (swE n d)
           else .csliceE ((k - 5) * n) (xzE n d)

/-- The complete dataflow graph of new_c. -/
def newCFullE (n d : ℕ) : TExpr := substGates (gateTreeE n d) combCE

/-- The complete dataflow graph of new_h. -/
def newHFullE (n d : ℕ) : TExpr := substGates (gateTreeE n d) combHE

end AdvancedNeatCell

/-- Activation record used for concrete rational evaluations; the gate
tensors themselves involve no nonlinearity, so any record serves there. -/
def idActs : Activations ℚ := { sigmoid := id, tanh := id }

/-- All-ones test matrix. -/
def onesM : Mat ℚ := fun _ _ => 1

/-- All-zeros test matrix. -/
def zeroM : Mat ℚ := fun _ _ => 0

/-- All-zeros test bias. -/
def zeroV : Vec ℚ := fun _ => 0

/-- Test kernel whose input rows hold 2 and whose hidden rows hold 3
(with input_depth 1). -/
def twoThreeK : Mat ℚ := fun i _ => if i = 0 then 2 else 3

/-- A tuple-state test configuration with num_units 1. -/
def cfgQ : NeatConfig ℚ := { num_units := 1, forget_bias := 1, state_is_tuple := true, activation := id }

/-- The real activations of the source: math_ops.sigmoid is
x to 1 / (1 + exp (-x)) and math_ops.tanh is the real tanh. -/
noncomputable def realActs : Activations ℝ :=
  { sigmoid := fun x => 1 / (1 + Real.exp (-x)), tanh := Real.tanh }

section Helpers

variable {α : Type} [LinearOrderedField α]

/-- Matrix multiplication only reads the first k rows of its right factor
(at the output column). -/
theorem matmul_congr_right (k : ℕ) (A B1 B2 : Mat α) (i j : ℕ)
    (hB : ∀ t, t < k → B1 t j = B2 t j) :
    matmul k A B1 i j = matmul k A B2 i j :=
  Finset.sum_congr rfl (fun t ht => by rw [hB t (Finset.mem_range.mp ht)])

/-- The real tanh is strictly inside (-1, 1). -/
theorem abs_tanh_lt_one (x : ℝ) : |Real.tanh x| < 1 := by
  rw [Real.tanh_eq_sinh_div_cosh, abs_div, abs_of_pos (Real.cosh_pos x),
    div_lt_one (Real.cosh_pos x), abs_lt]
  constructor
  · have hneg := Real.sinh_lt_cosh (-x)
    rw [Real.sinh_neg, Real.cosh_neg] at hneg
    linarith
  · exact Real.sinh_lt_cosh x

end Helpers

/-- Claim C1: for every built cell, 2-D input and previous state of the
arity declared by state_is_tuple, call returns the pair whose first
component is the new hidden state new_h and whose second component
carries new_c and new_h, as an LSTMStateTuple when state_is_tuple is
true and as their column-wise concatenation otherwise. -/
theorem claim1_call_returns_newh_and_packed_state :
    ∀ {α : Type} [LinearOrderedField α] (acts : Activations α)
      (cfg : NeatConfig α) (d : ℕ) (K : Mat α) (b : Vec α) (inputs : Mat α)
      (st : CellState α),
      arityOk cfg.state_is_tuple st = true →
      BasicNeatCell.call acts cfg d K b inputs st =
        some (BasicNeatCell.newH acts cfg.num_units d K b inputs
                (stateC cfg.num_units st) (stateH cfg.num_units st),
              if cfg.state_is_tuple then
                CellState.tuple
                  (BasicNeatCell.newC acts cfg.num_units d K b inputs
                    (stateC cfg.num_units st) (stateH cfg.num_units st))
                  (BasicNeatCell.newH acts cfg.num_units d K b inputs
                    (stateC cfg.num_units st) (stateH cfg.num_units st))
              else
                CellState.single (concatCols cfg.num_units
                  (BasicNeatCell.newC acts cfg.num_units d K b inputs
                    (stateC cfg.num_units st) (stateH cfg.num_units st))
                  (BasicNeatCell.newH acts cfg.num_units d K b inputs
                    (stateC cfg.num_units st) (stateH cfg.num_units st)))) ∧
      AdvancedNeatCell.call acts cfg d K b inputs st =
        some (AdvancedNeatCell.newH acts cfg.num_units d K b inputs
                (stateC cfg.num_units st) (stateH cfg.num_units st),
              if cfg.state_is_tuple then
                CellState.tuple
                  (AdvancedNeatCell.newC acts cfg.num_units d K b inputs
                    (stateC cfg.num_units st) (stateH cfg.num_units st))
                  (AdvancedNeatCell.newH acts cfg.num_units d K b inputs
                    (stateC cfg.num_units st) (stateH cfg.num_units st))
              else
                CellState.single (concatCols cfg.num_units
                  (AdvancedNeatCell.newC acts cfg.num_units d K b inputs
                    (stateC cfg.num_units st) (stateH cfg.num_units st))
                  (AdvancedNeatCell.newH acts cfg.num_units d K b inputs
                    (stateC cfg.num_units st) (stateH cfg.num_units st)))) := by
  intro α _ acts cfg d K b inputs st hok
  cases st with
  | tuple c h =>
      cases hb : cfg.state_is_tuple with
      | false => rw [hb] at hok; simp [arityOk] at hok
      | true =>
          constructor <;>
            simp [BasicNeatCell.call, AdvancedNeatCell.call, hb, stateC, stateH]
  | single s =>
      cases hb : cfg.state_is_tuple with
      | true => rw [hb] at hok; simp [arityOk] at hok
      | false =>
          constructor <;>
            simp [BasicNeatCell.call, AdvancedNeatCell.call, hb, stateC, stateH]

/-- Witness for claim C1 at a concrete tuple-state input. -/
theorem claim1_witness :
    arityOk cfgQ.state_is_tuple (CellState.tuple onesM onesM) = true ∧
    (BasicNeatCell.call idActs cfgQ 1 onesM zeroV onesM (CellState.tuple onesM onesM) =
        some (BasicNeatCell.newH idActs cfgQ.num_units 1 onesM zeroV onesM
                (stateC cfgQ.num_units (CellState.tuple onesM onesM))
                (stateH cfgQ.num_units (CellState.tuple onesM onesM)),
              if cfgQ.state_is_tuple then
                CellState.tuple
                  (BasicNeatCell.newC idActs cfgQ.num_units 1 onesM zeroV onesM
                    (stateC cfgQ.num_units (CellState.tuple onesM onesM))
                    (stateH cfgQ.num_units (CellState.tuple onesM onesM)))
                  (BasicNeatCell.newH idActs cfgQ.num_units 1 onesM zeroV onesM
                    (stateC cfgQ.num_units (CellState.tuple onesM onesM))
                    (stateH cfgQ.num_units (CellState.tuple onesM onesM)))
              else
                CellState.single (concatCols cfgQ.num_units
                  (BasicNeatCell.newC idActs cfgQ.num_units 1 onesM zeroV onesM
                    (stateC cfgQ.num_units (CellState.tuple onesM onesM))
                    (stateH cfgQ.num_units (CellState.tuple onesM onesM)))
                  (BasicNeatCell.newH idActs cfgQ.num_units 1 onesM zeroV onesM
                    (stateC cfgQ.num_units (CellState.tuple onesM onesM))
                    (stateH cfgQ.num_units (CellState.tuple onesM onesM))))) ∧
      AdvancedNeatCell.call idActs cfgQ 1 onesM zeroV onesM (CellState.tuple onesM onesM) =
        some (AdvancedNeatCell.newH idActs cfgQ.num_units 1 onesM zeroV onesM
                (stateC cfgQ.num_units (CellState.tuple onesM onesM))
                (stateH cfgQ.num_units (CellState.tuple onesM onesM)),
              if cfgQ.state_is_tuple then
                CellState.tuple
                  (AdvancedNeatCell.newC idActs cfgQ.num_units 1 onesM zeroV onesM
                    (stateC cfgQ.num_units (CellState.tuple onesM onesM))
                    (stateH cfgQ.num_units (CellState.tuple onesM onesM)))
                  (AdvancedNeatCell.newH idActs cfgQ.num_units 1 onesM zeroV onesM
                    (stateC cfgQ.num_units (CellState.tuple onesM onesM))
                    (stateH cfgQ.num_units (CellState.tuple onesM onesM)))
              else
                CellState.single (concatCols cfgQ.num_units
                  (AdvancedNeatCell.newC idActs cfgQ.num_units 1 onesM zeroV onesM
                    (stateC cfgQ.num_units (CellState.tuple onesM onesM))
                    (stateH cfgQ.num_units (CellState.tuple onesM onesM)))
                  (AdvancedNeatCell.newH idActs cfgQ.num_units 1 onesM zeroV onesM
                    (stateC cfgQ.num_units (CellState.tuple onesM onesM))
                    (stateH cfgQ.num_units (CellState.tuple onesM onesM)))))) :=
  ⟨rfl, claim1_call_returns_newh_and_packed_state idActs cfgQ 1 onesM zeroV onesM
          (CellState.tuple onesM onesM) rfl⟩

/-- Claim C4: build raises ValueError exactly when the last input
dimension is unknown, and with it known, build succeeds and call
completes with a value for every state of the declared arity — neither
method has any other failure of its own. -/
theorem claim4_single_shape_check_only :
    (∀ {α : Type} (cfg : NeatConfig α) (sh : Option ℕ),
        ((∃ e, BasicNeatCell.build cfg sh = .error e) ↔ sh = none) ∧
        ((∃ e, AdvancedNeatCell.build cfg sh = .error e) ↔ sh = none)) ∧
    (∀ {α : Type} [LinearOrderedField α] (acts : Activations α)
        (cfg : NeatConfig α) (d : ℕ) (K : Mat α) (b : Vec α)
        (inputs : Mat α) (st : CellState α),
        arityOk cfg.state_is_tuple st = true →
        (∃ out, BasicNeatCell.call acts cfg d K b inputs st = some out) ∧
        (∃ out, AdvancedNeatCell.call acts cfg d K b inputs st = some out)) := by
  constructor
  · intro α cfg sh
    cases sh with
    | none =>
        constructor
        all_goals constructor
        all_goals intro _
        · rfl
        · exact ⟨_, rfl⟩
        · rfl
        · exact ⟨_, rfl⟩
    | some d =>
        constructor
        all_goals constructor
        all_goals intro hx
        · obtain ⟨e, he⟩ := hx; cases he
        · cases hx
        · obtain ⟨e, he⟩ := hx; cases he
        · cases hx
  · intro α _ acts cfg d K b inputs st hok
    cases st with
    | tuple c h =>
        cases hb : cfg.state_is_tuple with
        | false => rw [hb] at hok; simp [arityOk] at hok
        | true =>
            have hbasic : BasicNeatCell.call acts cfg d K b inputs (CellState.tuple c h) =
                some (BasicNeatCell.newH acts cfg.num_units d K b inputs c h,
                      CellState.tuple (BasicNeatCell.newC acts cfg.num_units d K b inputs c h)
                        (BasicNeatCell.newH acts cfg.num_units d K b inputs c h)) := by
              simp [BasicNeatCell.call, hb]
            have hadv : AdvancedNeatCell.call acts cfg d K b inputs (CellState.tuple c h) =
                some (AdvancedNeatCell.newH acts cfg.num_units d K b inputs c h,
                      CellState.tuple (AdvancedNeatCell.newC acts cfg.num_units d K b inputs c h)
                        (AdvancedNeatCell.newH acts cfg.num_units d K b inputs c h)) := by
              simp [AdvancedNeatCell.call, hb]
            exact ⟨⟨_, hbasic⟩, ⟨_, hadv⟩⟩
    | single s =>
        cases hb : cfg.state_is_tuple with
        | true => rw [hb] at hok; simp [arityOk] at hok
        | false =>
            have hbasic : BasicNeatCell.call acts cfg d K b inputs (CellState.single s) =
                some (BasicNeatCell.newH acts cfg.num_units d K b inputs
                        (colSlice 0 s) (colSlice cfg.num_units s),
                      CellState.single (concatCols cfg.num_units
                        (BasicNeatCell.newC acts cfg.num_units d K b inputs
                          (colSlice 0 s) (colSlice cfg.num_units s))
                        (BasicNeatCell.newH acts cfg.num_units d K b inputs
                          (colSlice 0 s) (colSlice cfg.num_units s)))) := by
              simp [BasicNeatCell.call, hb]
            have hadv : AdvancedNeatCell.call acts cfg d K b inputs (CellState.single s) =
                some (AdvancedNeatCell.newH acts cfg.num_units d K b inputs
                        (colSlice 0 s) (colSlice cfg.num_units s),
                      CellState.single (concatCols cfg.num_units
                        (AdvancedNeatCell.newC acts cfg.num_units d K b inputs
                          (colSlice 0 s) (colSlice cfg.num_units s))
                        (AdvancedNeatCell.newH acts cfg.num_units d K b inputs
                          (colSlice 0 s) (colSlice cfg.num_units s)))) := by
              simp [AdvancedNeatCell.call, hb]
            exact ⟨⟨_, hbasic⟩, ⟨_, hadv⟩⟩

/-- Witness for claim C4: at a known input depth and a matching state,
both cells produce values. -/
theorem claim4_witness :
    (∃ out, BasicNeatCell.call idActs cfgQ 1 onesM zeroV onesM
        (CellState.tuple onesM onesM) = some out) ∧
    (∃ out, AdvancedNeatCell.call idActs cfgQ 1 onesM zeroV onesM
        (CellState.tuple onesM onesM) = some out) :=
  claim4_single_shape_check_only.2 idActs cfgQ 1 onesM zeroV onesM
    (CellState.tuple onesM onesM) rfl

/-- Claim C6: both cells expose the standard LSTM interface sizes:
output_size is num_units, state_size is the pair (num_units, num_units)
when state_is_tuple and 2 * num_units otherwise, and the flat state
produced by call decomposes back into its new_c and new_h components
of width num_units. -/
theorem claim6_lstm_interface_sizes :
    (∀ {α : Type} (n : ℕ) (fb : α) (tup : Bool) (act : α → α),
        BasicNeatCell.state_size
          { num_units := n, forget_bias := fb, state_is_tuple := true, activation := act } =
          .pair n n ∧
        BasicNeatCell.state_size
          { num_units := n, forget_bias := fb, state_is_tuple := false, activation := act } =
          .flat (2 * n) ∧
        BasicNeatCell.output_size
          { num_units := n, forget_bias := fb, state_is_tuple := tup, activation := act } = n ∧
        AdvancedNeatCell.state_size
          { num_units := n, forget_bias := fb, state_is_tuple := true, activation := act } =
          .pair n n ∧
        AdvancedNeatCell.state_size
          { num_units := n, forget_bias := fb, state_is_tuple := false, activation := act } =
          .flat (2 * n) ∧
        AdvancedNeatCell.output_size
          { num_units := n, forget_bias := fb, state_is_tuple := tup, activation := act } = n) ∧
    (∀ {α : Type} [LinearOrderedField α] (n : ℕ) (nc nh : Mat α) (i j : ℕ),
        (j < n → stateC n (CellState.single (concatCols n nc nh)) i j = nc i j) ∧
        stateH n (CellState.single (concatCols n nc nh)) i j = nh i j) := by
  constructor
  · intro α n fb tup act
    refine ⟨rfl, rfl, rfl, rfl, rfl, rfl⟩
  · intro α _ n nc nh i j
    constructor
    · intro hj
      simp [stateC, colSlice, concatCols, hj]
    · simp [stateH, colSlice, concatCols]

/-- Witness for claim C6 at concrete matrices and indices. -/
theorem claim6_witness :
    (0 < 1 → stateC 1 (CellState.single (concatCols 1 onesM zeroM)) 0 0 = onesM 0 0) ∧
    stateH 1 (CellState.single (concatCols 1 onesM zeroM)) 0 0 = zeroM 0 0 :=
  claim6_lstm_interface_sizes.2 1 onesM zeroM 0 0

/-- Claim C7: the two cell classes agree on everything outside call —
constructor, state_size, output_size and build are identical functions —
while their call transitions differ (15 against 12 at a concrete all-ones
input with num_units 1), so the
two variants are one transition function differing only in the
gate-combination wiring inside call. -/
theorem claim7_variants_identical_outside_call :
    (∀ {α : Type} (acts : Activations α) (n : ℕ) (fb : α) (tup : Bool)
        (act : Option (α → α)),
        BasicNeatCell.init acts n fb tup act = AdvancedNeatCell.init acts n fb tup act) ∧
    (∀ {α : Type} (cfg : NeatConfig α),
        BasicNeatCell.state_size cfg = AdvancedNeatCell.state_size cfg) ∧
    (∀ {α : Type} (cfg : NeatConfig α),
        BasicNeatCell.output_size cfg = AdvancedNeatCell.output_size cfg) ∧
    (∀ {α : Type} (cfg : NeatConfig α) (sh : Option ℕ),
        BasicNeatCell.build cfg sh = AdvancedNeatCell.build cfg sh) ∧
    BasicNeatCell.newC idActs 1 1 onesM zeroV onesM onesM onesM 0 0 = 15 ∧
    AdvancedNeatCell.newC idActs 1 1 onesM zeroV onesM onesM onesM 0 0 = 12 := by
  refine ⟨fun _ _ _ _ _ => rfl, fun _ => rfl, fun _ => rfl, fun cfg sh => ?_, ?_, ?_⟩
  · cases sh <;> rfl
  · simp [BasicNeatCell.newC, BasicNeatCell.combineC, BasicNeatCell.gatesOf,
      BasicNeatCell.gateA, BasicNeatCell.bh, BasicNeatCell.wFh, BasicNeatCell.wFi,
      BasicNeatCell.wRh, BasicNeatCell.wRi, BasicNeatCell.wF, BasicNeatCell.wR,
      BasicNeatCell.bF, BasicNeatCell.bR, biasAdd, emul, eadd, emap, eid, relu,
      matmul, Finset.sum_range_succ, rowSlice, colSlice, vecSlice, idActs, zeroV, onesM]
    norm_num
  · simp [AdvancedNeatCell.newC, AdvancedNeatCell.combineC, AdvancedNeatCell.gatesOf,
      AdvancedNeatCell.sw, AdvancedNeatCell.xz, AdvancedNeatCell.wFh, AdvancedNeatCell.wFi,
      AdvancedNeatCell.wRh, AdvancedNeatCell.wRi, AdvancedNeatCell.wF, AdvancedNeatCell.wR,
      AdvancedNeatCell.bF, AdvancedNeatCell.bR, biasAdd, emul, emax, eadd, emap, eid, relu,
      matmul, Finset.sum_range_succ, rowSlice, colSlice, vecSlice, idActs, zeroV, onesM]
    norm_num

/-- Claim C10: the results of build and call never depend on the stored
forget_bias and activation constructor arguments: two configurations
agreeing on num_units and state_is_tuple give identical results. -/
theorem claim10_forget_bias_activation_unread :
    ∀ {α : Type} [LinearOrderedField α] (acts : Activations α)
      (cfg1 cfg2 : NeatConfig α) (sh : Option ℕ) (d : ℕ) (K : Mat α)
      (b : Vec α) (inputs : Mat α) (st : CellState α),
      cfg1.num_units = cfg2.num_units →
      cfg1.state_is_tuple = cfg2.state_is_tuple →
      BasicNeatCell.build cfg1 sh = BasicNeatCell.build cfg2 sh ∧
      BasicNeatCell.call acts cfg1 d K b inputs st =
        BasicNeatCell.call acts cfg2 d K b inputs st ∧
      AdvancedNeatCell.build cfg1 sh = AdvancedNeatCell.build cfg2 sh ∧
      AdvancedNeatCell.call acts cfg1 d K b inputs st =
        AdvancedNeatCell.call acts cfg2 d K b inputs st := by
  intro α _ acts cfg1 cfg2 sh d K b inputs st hn ht
  obtain ⟨n1, f1, t1, a1⟩ := cfg1
  obtain ⟨n2, f2, t2, a2⟩ := cfg2
  simp only at hn ht
  subst hn
  subst ht
  exact ⟨rfl, rfl, rfl, rfl⟩

/-- Witness for claim C10: two configurations differing only in
forget_bias and activation yield the same call result. -/
theorem claim10_witness :
    BasicNeatCell.call idActs
      { num_units := 1, forget_bias := 1, state_is_tuple := true, activation := id }
      1 onesM zeroV onesM (CellState.tuple onesM onesM) =
    BasicNeatCell.call idActs
      { num_units := 1, forget_bias := 7, state_is_tuple := true, activation := fun x => x + 1 }
      1 onesM zeroV onesM (CellState.tuple onesM onesM) :=
  (claim10_forget_bias_activation_unread idActs
      { num_units := 1, forget_bias := 1, state_is_tuple := true, activation := id }
      { num_units := 1, forget_bias := 7, state_is_tuple := true, activation := fun x => x + 1 }
      (some 1) 1 onesM zeroV onesM (CellState.tuple onesM onesM) rfl rfl).2.1

/-- Claim C8: in BasicNeatCell.call the name h is rebound by the gate
split, so relu is applied to the seventh sub-vector of bh (gate index 7,
the column block at offset 6 * num_units), and the previous hidden state
reaches the result only through the two products matmul(h, W_fh) and
matmul(h, W_rh) computed before the split: previous hidden states with
equal products give equal transitions. -/
theorem claim8_h_rebound_influence_through_products :
    ∀ {α : Type} [LinearOrderedField α] (acts : Activations α) (n d : ℕ)
      (K : Mat α) (b : Vec α) (inputs c h1 h2 : Mat α),
      matmul n h1 (BasicNeatCell.wFh n d K) = matmul n h2 (BasicNeatCell.wFh n d K) →
      matmul n h1 (BasicNeatCell.wRh n d K) = matmul n h2 (BasicNeatCell.wRh n d K) →
      BasicNeatCell.gatesOf n d K b inputs h1 7 =
        colSlice (6 * n) (BasicNeatCell.bh n d K b inputs h1) ∧
      BasicNeatCell.newC acts n d K b inputs c h1 =
        BasicNeatCell.newC acts n d K b inputs c h2 ∧
      BasicNeatCell.newH acts n d K b inputs c h1 =
        BasicNeatCell.newH acts n d K b inputs c h2 := by
  intro α _ acts n d K b inputs c h1 h2 hfh hrh
  have hg : BasicNeatCell.gatesOf n d K b inputs h1 =
      BasicNeatCell.gatesOf n d K b inputs h2 := by
    funext k
    by_cases hk : k = 0
    · subst hk
      show BasicNeatCell.gateA n d K b inputs h1 = BasicNeatCell.gateA n d K b inputs h2
      simp only [BasicNeatCell.gateA]
      rw [hfh]
    · simp only [BasicNeatCell.gatesOf, if_neg hk, BasicNeatCell.bh]
      rw [hrh]
  refine ⟨?_, ?_, ?_⟩
  · simp [BasicNeatCell.gatesOf]
  · simp only [BasicNeatCell.newC]
    rw [hg]
  · simp only [BasicNeatCell.newH, BasicNeatCell.newC]
    rw [hg]

/-- Witness for claim C8: with a zero kernel, two different previous
hidden states have equal projections, and the transitions agree. -/
theorem claim8_witness :
    BasicNeatCell.newC idActs 1 1 zeroM zeroV onesM onesM onesM =
      BasicNeatCell.newC idActs 1 1 zeroM zeroV onesM onesM (fun _ _ => 2) :=
  (claim8_h_rebound_influence_through_products idActs 1 1 zeroM zeroV onesM onesM
      onesM (fun _ _ => 2)
      (by
        funext i j
        simp [matmul, BasicNeatCell.wFh, BasicNeatCell.wF, rowSlice, colSlice, zeroM])
      (by
        funext i j
        simp [matmul, BasicNeatCell.wRh, BasicNeatCell.wR, rowSlice, colSlice, zeroM])).2.1

/-- Counterexample to claim C2: the first gate tensor a of
BasicNeatCell.call (gate index 0) is not the corresponding column slice
of the single fused multiply-then-split computation described by the
spec.  At input_depth 1, num_units 1, inputs = h = 1, kernel rows
(2, 3) and zero bias, the code computes (1 * 3) * (1 * 2) = 6 while the
fused multiply gives 1 * 2 + 1 * 3 = 5: the kernel is split before the
multiplies, not after one fused multiply. -/
theorem claim2_counterexample :
    BasicNeatCell.gatesOf 1 1 twoThreeK zeroV onesM onesM 0 0 0 ≠
      colSlice 0 (specFusedLinear 1 1 twoThreeK zeroV onesM onesM) 0 0 := by
  have h1 : BasicNeatCell.gatesOf 1 1 twoThreeK zeroV onesM onesM 0 0 0 = 6 := by
    simp [BasicNeatCell.gatesOf, BasicNeatCell.gateA, BasicNeatCell.wFh, BasicNeatCell.wFi,
      BasicNeatCell.wF, BasicNeatCell.bF, biasAdd, emul, matmul, Finset.sum_range_succ,
      rowSlice, colSlice, vecSlice, twoThreeK, zeroV, onesM]
    norm_num
  have h2 : colSlice 0 (specFusedLinear 1 1 twoThreeK zeroV onesM onesM) 0 0 = 5 := by
    simp [specFusedLinear, biasAdd, matmul, Finset.sum_range_succ, colSlice, concatCols,
      twoThreeK, zeroV, onesM]
    norm_num
  rw [h1, h2]
  norm_num

/-- Claim C2 as amended: the kernel and bias are split into per-group
blocks before the matrix multiplies, and each cell multiplies the hidden
state and the input separately against those blocks; only the additively
combined groups — the second gate group bh of BasicNeatCell and the
first gate group sw of AdvancedNeatCell — are equivalent to splitting
one fused multiply of the column-concatenated data [inputs, h] against
the stored kernel with its bias, while BasicNeatCell's first gate
(elementwise product of its two partial products) and AdvancedNeatCell's
second group (elementwise maximum of its two partial products) are not. -/
theorem claim2_amended_partial_fusion :
    ∀ {α : Type} [LinearOrderedField α] (n d : ℕ) (K : Mat α) (b : Vec α)
      (inputs h : Mat α) (i j : ℕ),
      BasicNeatCell.bh n d K b inputs h i j =
        colSlice n (specFusedLinear n d K b inputs h) i j ∧
      AdvancedNeatCell.sw n d K b inputs h i j =
        colSlice 0 (specFusedLinear n d K b inputs h) i j := by
  intro α _ n d K b inputs h i j
  have hsplit : ∀ cc : ℕ,
      (∑ t ∈ Finset.range (d + n), concatCols d inputs h i t * K t cc) =
        (∑ t ∈ Finset.range d, inputs i t * K t cc) +
          ∑ t ∈ Finset.range n, h i t * K (d + t) cc := by
    intro cc
    rw [Finset.sum_range_add (fun t => concatCols d inputs h i t * K t cc) d n]
    congr 1
    · refine Finset.sum_congr rfl fun t ht => ?_
      have htd : t < d := Finset.mem_range.mp ht
      simp [concatCols, htd]
    · refine Finset.sum_congr rfl fun t ht => ?_
      have : ¬ d + t < d := by omega
      simp [concatCols, this]
  constructor
  · simp only [BasicNeatCell.bh, biasAdd, eadd, matmul, BasicNeatCell.wRh, BasicNeatCell.wRi,
      BasicNeatCell.wR, BasicNeatCell.bR, rowSlice, colSlice, vecSlice, specFusedLinear,
      zero_add]
    rw [hsplit (n + j)]
    ring
  · simp only [AdvancedNeatCell.sw, biasAdd, eadd, matmul, AdvancedNeatCell.wFh,
      AdvancedNeatCell.wFi, AdvancedNeatCell.wF, AdvancedNeatCell.bF, rowSlice, colSlice,
      vecSlice, specFusedLinear, zero_add]
    rw [hsplit j]
    ring

/-- Counterexample to claim C3: the complete dataflow graph of
AdvancedNeatCell's transition — shown in claim3_amended_ops to evaluate
to the cell's new_c — contains an operation outside the allowed set
(sigmoid, tanh, relu, identity, matrix multiply, elementwise add and
multiply): the elementwise maximum combining the two matrix products of
its second gate group, already at num_units 1 and input_depth 1. -/
theorem claim3_counterexample :
    opsAllowed (AdvancedNeatCell.newCFullE 1 1) = false := rfl

/-- Claim C3 as amended: the gate-combination graphs of both cells, and
the complete transition graphs of BasicNeatCell, use only the
elementwise nonlinearities sigmoid, tanh, relu and identity together
with matrix multiplications and elementwise addition and multiplication;
but AdvancedNeatCell's complete transition graphs additionally use one
elementwise maximum (combining the two matrix products of its second
gate group), so they fall outside that operation set.  The evaluation
equalities tie each graph to the cell functions embedded from the
source. -/
theorem claim3_amended_ops :
    (∀ {α : Type} [LinearOrderedField α] (acts : Activations α) (n d : ℕ)
        (K : Mat α) (b : Vec α) (inputs c h : Mat α),
        BasicNeatCell.newC acts n d K b inputs c h =
          teval acts ⟨K, b, inputs, c, h, BasicNeatCell.gatesOf n d K b inputs h⟩
            BasicNeatCell.combCE ∧
        BasicNeatCell.newH acts n d K b inputs c h =
          teval acts ⟨K, b, inputs, c, h, BasicNeatCell.gatesOf n d K b inputs h⟩
            BasicNeatCell.combHE ∧
        BasicNeatCell.newC acts n d K b inputs c h =
          teval acts ⟨K, b, inputs, c, h, BasicNeatCell.gatesOf n d K b inputs h⟩
            (BasicNeatCell.newCFullE n d) ∧
        BasicNeatCell.newH acts n d K b inputs c h =
          teval acts ⟨K, b, inputs, c, h, BasicNeatCell.gatesOf n d K b inputs h⟩
            (BasicNeatCell.newHFullE n d) ∧
        AdvancedNeatCell.newC acts n d K b inputs c h =
          teval acts ⟨K, b, inputs, c, h, AdvancedNeatCell.gatesOf n d K b inputs h⟩
            AdvancedNeatCell.combCE ∧
        AdvancedNeatCell.newH acts n d K b inputs c h =
          teval acts ⟨K, b, inputs, c, h, AdvancedNeatCell.gatesOf n d K b inputs h⟩
            AdvancedNeatCell.combHE ∧
        AdvancedNeatCell.newC acts n d K b inputs c h =
          teval acts ⟨K, b, inputs, c, h, AdvancedNeatCell.gatesOf n d K b inputs h⟩
            (AdvancedNeatCell.newCFullE n d) ∧
        AdvancedNeatCell.newH acts n d K b inputs c h =
          teval acts ⟨K, b, inputs, c, h, AdvancedNeatCell.gatesOf n d K b inputs h⟩
            (AdvancedNeatCell.newHFullE n d)) ∧
    opsAllowed BasicNeatCell.combCE = true ∧
    opsAllowed BasicNeatCell.combHE = true ∧
    opsAllowed AdvancedNeatCell.combCE = true ∧
    opsAllowed AdvancedNeatCell.combHE = true ∧
    (∀ n d : ℕ,
        opsAllowed (BasicNeatCell.newCFullE n d) = true ∧
        opsAllowed (BasicNeatCell.newHFullE n d) = true ∧
        opsAllowed (AdvancedNeatCell.newCFullE n d) = false ∧
        opsAllowed (AdvancedNeatCell.newHFullE n d) = false) := by
  refine ⟨?_, rfl, rfl, rfl, rfl, ?_⟩
  · intro α _ acts n d K b inputs c h
    exact ⟨rfl, rfl, rfl, rfl, rfl, rfl, rfl, rfl⟩
  · intro n d
    exact ⟨rfl, rfl, rfl, rfl⟩

/-- Every BasicNeatCell gate value at an output column below num_units
reads the kernel only inside its allocated
[input_depth + num_units, 8 * num_units] shape and the bias only below
8 * num_units. -/
theorem basic_gates_congr {α : Type} [LinearOrderedField α] (n d : ℕ)
    (K1 K2 : Mat α) (b1 b2 : Vec α) (inputs h : Mat α)
    (hK : ∀ r cc, r < d + n → cc < 8 * n → K1 r cc = K2 r cc)
    (hb : ∀ cc, cc < 8 * n → b1 cc = b2 cc)
    (k i j : ℕ) (hk : k < 8) (hj : j < n) :
    BasicNeatCell.gatesOf n d K1 b1 inputs h k i j =
      BasicNeatCell.gatesOf n d K2 b2 inputs h k i j := by
  by_cases hk0 : k = 0
  · subst hk0
    show BasicNeatCell.gateA n d K1 b1 inputs h i j =
      BasicNeatCell.gateA n d K2 b2 inputs h i j
    simp only [BasicNeatCell.gateA, biasAdd, emul, BasicNeatCell.bF, vecSlice]
    rw [matmul_congr_right n h (BasicNeatCell.wFh n d K1) (BasicNeatCell.wFh n d K2) i j
          (fun t ht => by
            simp only [BasicNeatCell.wFh, BasicNeatCell.wF, rowSlice, colSlice]
            exact hK _ _ (by omega) (by omega)),
        matmul_congr_right d inputs (BasicNeatCell.wFi n d K1) (BasicNeatCell.wFi n d K2) i j
          (fun t ht => by
            simp only [BasicNeatCell.wFi, BasicNeatCell.wF, rowSlice, colSlice]
            exact hK _ _ (by omega) (by omega)),
        hb (0 + j) (by omega)]
  · have hk6 : k - 1 ≤ 6 := by omega
    have hcol : (k - 1) * n + j < 7 * n := by
      have := Nat.mul_le_mul_right n hk6
      omega
    simp only [BasicNeatCell.gatesOf, if_neg hk0, colSlice, BasicNeatCell.bh, biasAdd, eadd,
      BasicNeatCell.bR, vecSlice]
    rw [matmul_congr_right n h (BasicNeatCell.wRh n d K1) (BasicNeatCell.wRh n d K2) i
          ((k - 1) * n + j)
          (fun t ht => by
            simp only [BasicNeatCell.wRh, BasicNeatCell.wR, rowSlice, colSlice]
            exact hK _ _ (by omega) (by omega)),
        matmul_congr_right d inputs (BasicNeatCell.wRi n d K1) (BasicNeatCell.wRi n d K2) i
          ((k - 1) * n + j)
          (fun t ht => by
            simp only [BasicNeatCell.wRi, BasicNeatCell.wR, rowSlice, colSlice]
            exact hK _ _ (by omega) (by omega)),
        hb (n + ((k - 1) * n + j)) (by omega)]

/-- Every AdvancedNeatCell gate value at an output column below num_units
reads the kernel only inside its allocated shape and the bias only below
8 * num_units. -/
theorem advanced_gates_congr {α : Type} [LinearOrderedField α] (n d : ℕ)
    (K1 K2 : Mat α) (b1 b2 : Vec α) (inputs h : Mat α)
    (hK : ∀ r cc, r < d + n → cc < 8 * n → K1 r cc = K2 r cc)
    (hb : ∀ cc, cc < 8 * n → b1 cc = b2 cc)
    (k i j : ℕ) (hk : k < 8) (hj : j < n) :
    AdvancedNeatCell.gatesOf n d K1 b1 inputs h k i j =
      AdvancedNeatCell.gatesOf n d K2 b2 inputs h k i j := by
  by_cases hk5 : k < 5
  · have hk4 : k ≤ 4 := by omega
    have hcol : k * n + j < 5 * n := by
      have := Nat.mul_le_mul_right n hk4
      omega
    simp only [AdvancedNeatCell.gatesOf, if_pos hk5, colSlice, AdvancedNeatCell.sw, biasAdd,
      eadd, AdvancedNeatCell.bF, vecSlice]
    rw [matmul_congr_right n h (AdvancedNeatCell.wFh n d K1) (AdvancedNeatCell.wFh n d K2) i
          (k * n + j)
          (fun t ht => by
            simp only [AdvancedNeatCell.wFh, AdvancedNeatCell.wF, rowSlice, colSlice]
            exact hK _ _ (by omega) (by omega)),
        matmul_congr_right d inputs (AdvancedNeatCell.wFi n d K1) (AdvancedNeatCell.wFi n d K2) i
          (k * n + j)
          (fun t ht => by
            simp only [AdvancedNeatCell.wFi, AdvancedNeatCell.wF, rowSlice, colSlice]
            exact hK _ _ (by omega) (by omega)),
        hb (0 + (k * n + j)) (by omega)]
  · have hk2 : k - 5 ≤ 2 := by omega
    have hcol : (k - 5) * n + j < 3 * n := by
      have := Nat.mul_le_mul_right n hk2
      omega
    simp only [AdvancedNeatCell.gatesOf, if_neg hk5, colSlice, AdvancedNeatCell.xz, biasAdd,
      emax, AdvancedNeatCell.bR, vecSlice]
    rw [matmul_congr_right n h (AdvancedNeatCell.wRh n d K1) (AdvancedNeatCell.wRh n d K2) i
          ((k - 5) * n + j)
          (fun t ht => by
            simp only [AdvancedNeatCell.wRh, AdvancedNeatCell.wR, rowSlice, colSlice]
            exact hK _ _ (by omega) (by omega)),
        matmul_congr_right d inputs (AdvancedNeatCell.wRi n d K1) (AdvancedNeatCell.wRi n d K2) i
          ((k - 5) * n + j)
          (fun t ht => by
            simp only [AdvancedNeatCell.wRi, AdvancedNeatCell.wR, rowSlice, colSlice]
            exact hK _ _ (by omega) (by omega)),
        hb (5 * n + ((k - 5) * n + j)) (by omega)]

/-- The Basic combination formulas read each gate elementwise. -/
theorem basic_combine_congr {α : Type} [LinearOrderedField α]
    (acts : Activations α) (c : Mat α) (g1 g2 : ℕ → Mat α) (i j : ℕ)
    (hg : ∀ k, k < 8 → g1 k i j = g2 k i j) :
    BasicNeatCell.combineC acts c g1 i j = BasicNeatCell.combineC acts c g2 i j ∧
    BasicNeatCell.combineH acts (BasicNeatCell.combineC acts c g1) g1 i j =
      BasicNeatCell.combineH acts (BasicNeatCell.combineC acts c g2) g2 i j := by
  have hC : BasicNeatCell.combineC acts c g1 i j = BasicNeatCell.combineC acts c g2 i j := by
    simp only [BasicNeatCell.combineC, emul, emap, eadd, eid]
    rw [hg 0 (by omega), hg 3 (by omega), hg 6 (by omega), hg 7 (by omega)]
  refine ⟨hC, ?_⟩
  simp only [BasicNeatCell.combineH, emul, emap, eadd, eid]
  rw [hC, hg 1 (by omega), hg 2 (by omega), hg 4 (by omega), hg 5 (by omega)]

/-- The Advanced combination formulas read each gate elementwise. -/
theorem advanced_combine_congr {α : Type} [LinearOrderedField α]
    (acts : Activations α) (c : Mat α) (g1 g2 : ℕ → Mat α) (i j : ℕ)
    (hg : ∀ k, k < 8 → g1 k i j = g2 k i j) :
    AdvancedNeatCell.combineC acts c g1 i j = AdvancedNeatCell.combineC acts c g2 i j ∧
    AdvancedNeatCell.combineH acts (AdvancedNeatCell.combineC acts c g1) g1 i j =
      AdvancedNeatCell.combineH acts (AdvancedNeatCell.combineC acts c g2) g2 i j := by
  have hC : AdvancedNeatCell.combineC acts c g1 i j = AdvancedNeatCell.combineC acts c g2 i j := by
    simp only [AdvancedNeatCell.combineC, emul, emap, eadd, eid]
    rw [hg 0 (by omega), hg 3 (by omega), hg 6 (by omega), hg 7 (by omega)]
  refine ⟨hC, ?_⟩
  simp only [AdvancedNeatCell.combineH, emul, emap, eadd, eid]
  rw [hC, hg 1 (by omega), hg 2 (by omega), hg 4 (by omega), hg 5 (by omega)]

/-- Claim C5: each cell allocates exactly one kernel of shape
[input_depth + num_units, 8 * num_units] and one bias of shape
[8 * num_units], and call obtains every gate from splits of that single
kernel and bias: within the output columns of the cell, the transition
reads no kernel entry or bias entry outside those shapes, and no
parameter other than the kernel, the bias and the data arguments enters
the computation. -/
theorem claim5_single_kernel_and_bias :
    (∀ {α : Type} (cfg : NeatConfig α) (d : ℕ),
        BasicNeatCell.build cfg (some d) =
          .ok ((d + cfg.num_units, 8 * cfg.num_units), 8 * cfg.num_units) ∧
        AdvancedNeatCell.build cfg (some d) =
          .ok ((d + cfg.num_units, 8 * cfg.num_units), 8 * cfg.num_units)) ∧
    (∀ {α : Type} [LinearOrderedField α] (acts : Activations α) (n d : ℕ)
        (K1 K2 : Mat α) (b1 b2 : Vec α) (inputs c h : Mat α),
        (∀ r cc, r < d + n → cc < 8 * n → K1 r cc = K2 r cc) →
        (∀ cc, cc < 8 * n → b1 cc = b2 cc) →
        ∀ i j, j < n →
          BasicNeatCell.newC acts n d K1 b1 inputs c h i j =
            BasicNeatCell.newC acts n d K2 b2 inputs c h i j ∧
          BasicNeatCell.newH acts n d K1 b1 inputs c h i j =
            BasicNeatCell.newH acts n d K2 b2 inputs c h i j ∧
          AdvancedNeatCell.newC acts n d K1 b1 inputs c h i j =
            AdvancedNeatCell.newC acts n d K2 b2 inputs c h i j ∧
          AdvancedNeatCell.newH acts n d K1 b1 inputs c h i j =
            AdvancedNeatCell.newH acts n d K2 b2 inputs c h i j) := by
  refine ⟨fun cfg d => ⟨rfl, rfl⟩, ?_⟩
  intro α _ acts n d K1 K2 b1 b2 inputs c h hK hb i j hj
  have hgB : ∀ k, k < 8 →
      BasicNeatCell.gatesOf n d K1 b1 inputs h k i j =
        BasicNeatCell.gatesOf n d K2 b2 inputs h k i j :=
    fun k hk => basic_gates_congr n d K1 K2 b1 b2 inputs h hK hb k i j hk hj
  have hgA : ∀ k, k < 8 →
      AdvancedNeatCell.gatesOf n d K1 b1 inputs h k i j =
        AdvancedNeatCell.gatesOf n d K2 b2 inputs h k i j :=
    fun k hk => advanced_gates_congr n d K1 K2 b1 b2 inputs h hK hb k i j hk hj
  have hB := basic_combine_congr acts c (BasicNeatCell.gatesOf n d K1 b1 inputs h)
    (BasicNeatCell.gatesOf n d K2 b2 inputs h) i j hgB
  have hA := advanced_combine_congr acts c (AdvancedNeatCell.gatesOf n d K1 b1 inputs h)
    (AdvancedNeatCell.gatesOf n d K2 b2 inputs h) i j hgA
  exact ⟨hB.1, hB.2, hA.1, hA.2⟩

/-- Witness for claim C5: changing the kernel only outside its allocated
8 * num_units columns leaves the transition unchanged. -/
theorem claim5_witness :
    BasicNeatCell.newC idActs 1 1 zeroM zeroV onesM onesM onesM 0 0 =
      BasicNeatCell.newC idActs 1 1 (fun _ cc => if 8 ≤ cc then 1 else 0) zeroV
        onesM onesM onesM 0 0 :=
  (claim5_single_kernel_and_bias.2 idActs 1 1 zeroM
      (fun _ cc => if 8 ≤ cc then 1 else 0) zeroV zeroV onesM onesM onesM
      (fun r cc hr hcc => by
        simp only [zeroM]
        rw [if_neg (by omega)])
      (fun cc hcc => rfl) 0 0 (by omega)).1

/-- Claim C9: with the real activations, every entry of the new hidden
state of both cells lies strictly inside (-1, 1) (the outermost
operation is tanh), and every entry of BasicNeatCell's new cell state
does too (a product of two tanh values), while AdvancedNeatCell's new
cell state escapes that bound already at num_units 1 with a zero kernel
and bias and previous cell state 10, where it equals 5. -/
theorem claim9_state_boundedness :
    (∀ (n d : ℕ) (K : Mat ℝ) (b : Vec ℝ) (inputs c h : Mat ℝ) (i j : ℕ),
        |BasicNeatCell.newH realActs n d K b inputs c h i j| < 1 ∧
        |BasicNeatCell.newC realActs n d K b inputs c h i j| < 1 ∧
        |AdvancedNeatCell.newH realActs n d K b inputs c h i j| < 1) ∧
    1 ≤ |AdvancedNeatCell.newC realActs 1 1 (fun _ _ => 0) (fun _ => 0)
          (fun _ _ => 0) (fun _ _ => 10) (fun _ _ => 0) 0 0| := by
  have hprod : ∀ x y : ℝ, |Real.tanh x * Real.tanh y| < 1 := by
    intro x y
    rw [abs_mul]
    exact lt_of_le_of_lt
      (mul_le_of_le_one_left (abs_nonneg _) (abs_tanh_lt_one x).le)
      (abs_tanh_lt_one y)
  constructor
  · intro n d K b inputs c h i j
    exact ⟨abs_tanh_lt_one _, hprod _ _, abs_tanh_lt_one _⟩
  · have hval : AdvancedNeatCell.newC realActs 1 1 (fun _ _ => 0) (fun _ => 0)
        (fun _ _ => 0) (fun _ _ => 10) (fun _ _ => 0) 0 0 = 5 := by
      simp [AdvancedNeatCell.newC, AdvancedNeatCell.combineC, AdvancedNeatCell.gatesOf,
        AdvancedNeatCell.sw, AdvancedNeatCell.xz, AdvancedNeatCell.wFh, AdvancedNeatCell.wFi,
        AdvancedNeatCell.wRh, AdvancedNeatCell.wRi, AdvancedNeatCell.wF, AdvancedNeatCell.wR,
        AdvancedNeatCell.bF, AdvancedNeatCell.bR, biasAdd, emul, emax, eadd, emap, eid, relu,
        matmul, Finset.sum_range_succ, rowSlice, colSlice, vecSlice, realActs,
        Real.tanh_zero, Real.exp_zero]
      norm_num
    rw [hval]
    norm_num
